import Mathlib

/-!
Verification development for the lehakshiv repository
(src/lehakshiv/text2speak.py, src/lehakshiv/lbackend.py,
src/lehakshiv/textcleaner.py).

Python strings are modelled as lists of characters (`PyStr`), file bytes as
lists of naturals (`Bytes`), and the filesystem as a partial map from paths
to byte contents.  Each definition carries a comment pointing at the source
lines it embeds.
-/

set_option autoImplicit false

/-- A Python string, modelled as its list of characters. -/
abbrev PyStr := List Char

/-- The byte contents of a file. -/
abbrev Bytes := List Nat

/-- Python `s.split(" ")` (a single-space separator): the string is cut at
every occurrence of the space character, keeping empty pieces, and the empty
string yields `[""]`.  This is the exact splitting used by
`len(text.split(" "))` in `LText2Speak.get_audio_file`
(text2speak.py line 106). -/
def splitOnSpace : PyStr → List PyStr
  | [] => [[]]
  | c :: rest =>
    if c = ' ' then [] :: splitOnSpace rest
    else
      match splitOnSpace rest with
      | [] => [[c]]
      | w :: ws => (c :: w) :: ws

/-- `len(text.split(" "))`: the word count used by the chunk planner
(text2speak.py line 106). -/
def countWords (s : PyStr) : Nat := (splitOnSpace s).length

/-- The line-accumulation loop of `LText2Speak.get_audio_file`
(text2speak.py lines 101-113): iterate over the lines of the text file,
appending a line to the accumulated `text` while
`len(text.split(" ")) < 4096`, and otherwise emitting the accumulated text
as a chunk and restarting the accumulator from the current line.  The loop
body never emits the accumulator after the last line, so the final residue
is dropped, exactly as in the source. -/
def chunkLoop : List PyStr → PyStr → List PyStr
  | [], _ => []
  | line :: rest, text =>
    if countWords text < 4096 then chunkLoop rest (text ++ line)
    else text :: chunkLoop rest line

/-- The chunk planner: the loop of text2speak.py lines 101-113 started on
the file's lines with the accumulator `text = ""`. -/
def planChunks (lines : List PyStr) : List PyStr := chunkLoop lines []

/-- The segment path expression `f'{self.in_work_dir}/{6:i}.mp3'`
(text2speak.py line 109).  The expression formats the literal `6` and never
mentions the loop counter `i`, so the resulting name is the same for every
iteration; we model it as the constant `workDir ++ "/6.mp3"` (the reading
the repository's documentation takes).  Note that in CPython the format
spec `i` is not a valid presentation type for `int`, so evaluating the
f-string raises `ValueError`; under either reading the path does not depend
on the loop counter. -/
def segPath (workDir : PyStr) (i : Nat) : PyStr := workDir ++ "/6.mp3".toList

/-- The same accumulation loop as `chunkLoop`, recording the list `chunks`
of segment paths appended at line 109 of text2speak.py, with the loop
counter `i` incremented after every emission (line 112). -/
def chunkLoopPaths (workDir : PyStr) : List PyStr → PyStr → Nat → List PyStr
  | [], _, _ => []
  | line :: rest, text, i =>
    if countWords text < 4096 then chunkLoopPaths workDir rest (text ++ line) i
    else segPath workDir i :: chunkLoopPaths workDir rest line (i + 1)

/-- The accumulation loop of text2speak.py lines 101-113 with the
`self.tts.text2mp3` call (line 110) made fallible: `synthOk i` says whether
the synthesis call for the chunk emitted with loop counter `i` succeeds.
A failing call raises, which aborts the loop immediately (there is no
`try` around it in the source), so the run ends in `Except.error` carrying
the list of chunk texts successfully synthesized before the failure;
a completed run returns the synthesized chunk texts. -/
def runSynth (synthOk : Nat → Bool) : List PyStr → PyStr → Nat → Except (List PyStr) (List PyStr)
  | [], _, _ => Except.ok []
  | line :: rest, text, i =>
    if countWords text < 4096 then runSynth synthOk rest (text ++ line) i
    else if synthOk i then
      match runSynth synthOk rest line (i + 1) with
      | Except.ok segs => Except.ok (text :: segs)
      | Except.error segs => Except.error (text :: segs)
    else Except.error []

/-- Python `" ".join(chunks)` (text2speak.py line 119). -/
def joinSpace : List PyStr → PyStr
  | [] => []
  | [p] => p
  | p :: ps => p ++ ' ' :: joinSpace ps

/-- The argument words the shell hands to `cat` when `os.system` runs the
command built at text2speak.py line 119: the joined path string is split at
unquoted blanks and empty fields are dropped. -/
def shellWords (s : PyStr) : List PyStr := (splitOnSpace s).filter (fun w => !w.isEmpty)

/-- POSIX `cat` over a filesystem `fs`: each named argument contributes its
byte contents in order; a missing file contributes nothing (cat reports it
on stderr and exits nonzero, which `os.system`'s caller ignores). -/
def catOutput (fs : PyStr → Option Bytes) (args : List PyStr) : Bytes :=
  (args.map (fun p => (fs p).getD [])).flatten

/-- `LText2Speak.merge_audio_files` (text2speak.py lines 115-120): runs
`os.system("cat " + " ".join(chunks) + " > " + out_name)`.  The shell
redirection always (re)creates the destination, which afterwards holds the
output of `cat` on the word-split argument list; the exit status is
discarded and no exception is ever raised. -/
def merge_audio_files (fs : PyStr → Option Bytes) (chunks : List PyStr) (out : PyStr) :
    PyStr → Option Bytes :=
  fun p => if p = out then some (catOutput fs (shellWords (joinSpace chunks))) else fs p

/-- `pathlib.Path(...).suffix[1:].lower()` (text2speak.py line 91) applied
to a file name without a directory separator: the characters after the last
dot, lowercased, provided the dot is neither the first character nor the
last one; otherwise the empty string. -/
def extOf (name : PyStr) : PyStr :=
  if 0 < ((name.reverse.takeWhile (fun c => c != '.')).reverse).length ∧
      ((name.reverse.takeWhile (fun c => c != '.')).reverse).length + 1 < name.length then
    ((name.reverse.takeWhile (fun c => c != '.')).reverse).map Char.toLower
  else []

/-- Outcome of a call to `LText2Speak.get_audio_file`: either an uncaught
Python exception, or a normal return carrying the returned integer and the
chunk texts handed to speech synthesis. -/
inductive ConvResult where
  | exception (name : PyStr)
  | returned (code : Int) (chunkTexts : List PyStr)
deriving DecidableEq

/-- The extension dispatch of `LText2Speak.get_audio_file` (text2speak.py
lines 91-113): for extension `pdf` the text is produced by the external
`pdf2txt` collaborator, for `txt` by `textcleaner.cleantext` (a line-by-line
identity copy, textcleaner.py lines 19-26); both cases then run the chunk
loop over the produced lines (here the parameter `lines`) and return `0`.
Any other extension logs an error and returns `-1` before the chunk loop,
raising nothing. -/
def get_audio_file (fileName : PyStr) (lines : List PyStr) : ConvResult :=
  if extOf fileName = "pdf".toList then ConvResult.returned 0 (planChunks lines)
  else if extOf fileName = "txt".toList then ConvResult.returned 0 (planChunks lines)
  else ConvResult.returned (-1) []

/-- `LBackend.convert` (lbackend.py lines 257-267): the route handler
returns `make_response(jsonify(filename))` and does nothing else; in
particular `LText2Speak` is never constructed or invoked anywhere in
lbackend.py.  The result pairs the JSON response body with the list of
conversion-pipeline invocations the handler performs (none). -/
def lbackend_convert (filename : PyStr) : PyStr × List PyStr := (filename, [])

/-- Result of `convert_bytes` (lbackend.py lines 28-35): either the
f-string `f'{size:3.1f} {unit}'`, abstracted as the scaled value together
with the unit it is printed with, or the bare number returned after the
loop exhausts the unit list. -/
inductive SizeOutput where
  | formatted (value : ℚ) (unit : PyStr)
  | bare (value : ℚ)
deriving DecidableEq

/-- The unit list of `convert_bytes` (lbackend.py line 31). -/
def byteUnits : List PyStr :=
  ["bytes".toList, "KB".toList, "MB".toList, "GB".toList, "TB".toList]

/-- The loop of `convert_bytes` (lbackend.py lines 31-35): for each unit in
order, return the formatted value if `size < 1024.0`, else divide the size
by `1024.0` and continue; after the last unit return the bare number.
Sizes are modelled as rationals: every division is by the power of two
`1024`, which is exact in binary floating point for the integer byte sizes
`st_size` supplies, so the branch structure is identical. -/
def convertBytesLoop : List PyStr → ℚ → SizeOutput
  | [], size => SizeOutput.bare size
  | unit :: rest, size =>
    if size < 1024 then SizeOutput.formatted size unit
    else convertBytesLoop rest (size / 1024)

/-- `convert_bytes` (lbackend.py lines 28-35). -/
def convert_bytes (size : ℚ) : SizeOutput := convertBytesLoop byteUnits size

/-! ### Concrete inputs used by counterexamples and witnesses -/

/-- `wsRep n` is a line of `n + 1` single-character words separated by `n`
single spaces: `w w ... w`. -/
def wsRep : Nat → PyStr
  | 0 => ['w']
  | n + 1 => 'w' :: ' ' :: wsRep n

/-- A line of 4096 single-character words separated by single spaces:
`len(line.split(" ")) = 4096`. -/
def exLine : PyStr := wsRep 4095

/-- A one-word line. -/
def xLine : PyStr := ['x']

/-- Filesystem for the merge order counterexample: only the single file
named `a b` (a path containing a space) exists. -/
def fsC4 : PyStr → Option Bytes :=
  fun p => if p = ['a', ' ', 'b'] then some [1] else none

/-- Filesystem for the merge error-handling counterexample: file `a` is
zero-length, file `b` holds one byte, everything else is missing. -/
def fsC7 : PyStr → Option Bytes :=
  fun p => if p = ['a'] then some [] else if p = ['b'] then some [9] else none

/-- Filesystem for the merge order witness: files `a` and `b` exist. -/
def fsW4 : PyStr → Option Bytes :=
  fun p => if p = ['a'] then some [1] else if p = ['b'] then some [2, 3] else none

/-- Filesystem for the merge error-handling witness: file `a` is missing,
file `b` exists. -/
def fsW7 : PyStr → Option Bytes :=
  fun p => if p = ['b'] then some [7] else none

/-! ### Sanity checks (small, concrete) -/

example : splitOnSpace "a b".toList = ["a".toList, "b".toList] := by decide
example : splitOnSpace "".toList = [[]] := by decide
example : countWords "a  b".toList = 3 := by decide
example : countWords ['a', '\n', 'b'] = 1 := by decide
example : planChunks [['h'], ['i']] = [] := by decide
example : extOf "x.PdF".toList = "pdf".toList := by decide
example : extOf "x.".toList = [] := by decide
example : extOf ".bashrc".toList = [] := by decide
example : extOf "noext".toList = [] := by decide
example : joinSpace [['a'], ['b']] = ['a', ' ', 'b'] := by decide
example : shellWords ['a', ' ', ' ', 'b'] = [['a'], ['b']] := by decide
example : convert_bytes 5 = SizeOutput.formatted 5 "bytes".toList := by decide
example : convert_bytes 2048 = SizeOutput.formatted 2 "KB".toList := by
  norm_num [convert_bytes, byteUnits, convertBytesLoop]

/-! ### Definitional recursion equations -/

theorem splitOnSpace_cons (c : Char) (rest : PyStr) :
    splitOnSpace (c :: rest) =
      if c = ' ' then [] :: splitOnSpace rest
      else
        match splitOnSpace rest with
        | [] => [[c]]
        | w :: ws => (c :: w) :: ws := rfl

theorem chunkLoop_cons (line : PyStr) (rest : List PyStr) (text : PyStr) :
    chunkLoop (line :: rest) text =
      if countWords text < 4096 then chunkLoop rest (text ++ line)
      else text :: chunkLoop rest line := rfl

theorem chunkLoopPaths_cons (workDir line : PyStr) (rest : List PyStr) (text : PyStr) (i : Nat) :
    chunkLoopPaths workDir (line :: rest) text i =
      if countWords text < 4096 then chunkLoopPaths workDir rest (text ++ line) i
      else segPath workDir i :: chunkLoopPaths workDir rest line (i + 1) := rfl

theorem runSynth_cons (synthOk : Nat → Bool) (line : PyStr) (rest : List PyStr)
    (text : PyStr) (i : Nat) :
    runSynth synthOk (line :: rest) text i =
      if countWords text < 4096 then runSynth synthOk rest (text ++ line) i
      else if synthOk i then
        match runSynth synthOk rest line (i + 1) with
        | Except.ok segs => Except.ok (text :: segs)
        | Except.error segs => Except.error (text :: segs)
      else Except.error [] := rfl

theorem joinSpace_cons2 (p q : PyStr) (ps : List PyStr) :
    joinSpace (p :: q :: ps) = p ++ ' ' :: joinSpace (q :: ps) := rfl

theorem wsRep_succ (n : Nat) : wsRep (n + 1) = 'w' :: ' ' :: wsRep n := rfl

/-! ### Word counting -/

theorem splitOnSpace_length : ∀ s : PyStr, (splitOnSpace s).length = s.count ' ' + 1
  | [] => by simp [splitOnSpace]
  | c :: rest => by
    have ih := splitOnSpace_length rest
    rw [splitOnSpace_cons]
    by_cases hc : c = ' '
    · subst hc
      rw [if_pos rfl]
      simp only [List.length_cons, List.count_cons_self, ih]
    · rw [if_neg hc]
      rcases hsp : splitOnSpace rest with _ | ⟨w, ws⟩
      · rw [hsp] at ih
        simp at ih
      · rw [hsp] at ih
        simp only [List.length_cons] at ih ⊢
        rw [List.count_cons_of_ne (fun h => hc h.symm)]
        omega

theorem countWords_eq (s : PyStr) : countWords s = s.count ' ' + 1 :=
  splitOnSpace_length s

theorem count_wsRep : ∀ n : Nat, (wsRep n).count ' ' = n
  | 0 => by decide
  | n + 1 => by
    rw [wsRep_succ, List.count_cons_of_ne (by decide : (' ' : Char) ≠ 'w'),
      List.count_cons_self, count_wsRep n]

theorem cw_exLine : countWords exLine = 4096 := by
  show countWords (wsRep 4095) = 4096
  rw [countWords_eq, count_wsRep]

theorem cw_exLine_not_lt : ¬ countWords exLine < 4096 := by
  rw [cw_exLine]
  omega

/-! ### Symbolic evaluation of the concrete chunk inputs -/

theorem plan_two_lines : planChunks [exLine, xLine] = [exLine] := by
  show chunkLoop [exLine, xLine] [] = [exLine]
  rw [chunkLoop_cons, if_pos (by decide : countWords [] < 4096), List.nil_append,
    chunkLoop_cons, if_neg cw_exLine_not_lt]
  rfl

theorem plan_three_lines : planChunks [exLine, exLine, xLine] = [exLine, exLine] := by
  show chunkLoop [exLine, exLine, xLine] [] = [exLine, exLine]
  rw [chunkLoop_cons, if_pos (by decide : countWords [] < 4096), List.nil_append,
    chunkLoop_cons, if_neg cw_exLine_not_lt, chunkLoop_cons, if_neg cw_exLine_not_lt]
  rfl

/-! ### The chunk planner: membership bound and the dropped residue -/

theorem chunkLoop_mem_ge : ∀ (lines : List PyStr) (text c : PyStr),
    c ∈ chunkLoop lines text → 4096 ≤ countWords c
  | [], _, _, hc => by simp [chunkLoop] at hc
  | line :: rest, text, c, hc => by
    rw [chunkLoop_cons] at hc
    by_cases h : countWords text < 4096
    · rw [if_pos h] at hc
      exact chunkLoop_mem_ge rest (text ++ line) c hc
    · rw [if_neg h] at hc
      rcases List.mem_cons.mp hc with rfl | hc2
      · omega
      · exact chunkLoop_mem_ge rest line c hc2

theorem chunkLoop_below : ∀ (lines : List PyStr) (text : PyStr),
    countWords (text ++ lines.flatten) < 4096 → chunkLoop lines text = []
  | [], _, _ => rfl
  | line :: rest, text, h => by
    have hmono : countWords text ≤ countWords (text ++ (line :: rest).flatten) := by
      rw [countWords_eq, countWords_eq, List.count_append]
      omega
    have ht : countWords text < 4096 := lt_of_le_of_lt hmono h
    rw [chunkLoop_cons, if_pos ht]
    refine chunkLoop_below rest (text ++ line) ?_
    rw [List.append_assoc, ← List.flatten_cons]
    exact h

/-- C1: the claim states that concatenating the emitted chunks reproduces
the original text; the code drops the final accumulated residue (the loop
in text2speak.py lines 105-112 has no flush after the last line), so for
the two-line text `h` / `i` the planner emits no chunk at all and the
concatenation of the chunks is empty, not the text. -/
theorem chunks_concat_loses_text :
    (planChunks [['h'], ['i']]).flatten ≠ ([['h'], ['i']] : List PyStr).flatten := by
  decide

/-- C2 (amended): no emitted chunk ever satisfies `word_count < 4096`;
a chunk is sealed only once the accumulated `len(text.split(" "))` has
reached the budget, so every emitted chunk has word count at least 4096,
and the empty input still yields zero chunks. -/
theorem chunk_word_budget_amended :
    (∀ (lines : List PyStr) (c : PyStr), c ∈ planChunks lines → 4096 ≤ countWords c) ∧
    planChunks [] = [] :=
  ⟨fun lines c hc => chunkLoop_mem_ge lines [] c hc, rfl⟩

/-- C2 witness: the amended bound at a concrete input: a 4096-word first
line is emitted as a chunk of word count exactly 4096. -/
theorem chunk_word_budget_amended_witness :
    exLine ∈ planChunks [exLine, xLine] ∧ 4096 ≤ countWords exLine := by
  have hmem : exLine ∈ planChunks [exLine, xLine] := by
    rw [plan_two_lines]
    exact List.mem_singleton.mpr rfl
  exact ⟨hmem, chunk_word_budget_amended.1 [exLine, xLine] exLine hmem⟩

/-- C2 counterexample: a chunk emitted by the planner whose word count is
not below the 4096-word budget, refuting the claimed invariant
`word_count < 4096` (the chunk is 4096 whitespace-separated words, so the
invariant also fails for whitespace-based counting). -/
theorem chunk_word_budget_counterexample :
    exLine ∈ planChunks [exLine, xLine] ∧ ¬ countWords exLine < 4096 := by
  constructor
  · rw [plan_two_lines]
    exact List.mem_singleton.mpr rfl
  · exact cw_exLine_not_lt

/-- C6: the claim states that a nonempty text below the word budget yields
exactly one chunk; in the code no emission condition is ever met for such a
text and the final accumulator is never flushed, so the planner yields zero
chunks for every text whose total word count is below 4096. -/
theorem below_budget_zero_chunks (lines : List PyStr)
    (h : countWords lines.flatten < 4096) : planChunks lines = [] :=
  chunkLoop_below lines [] (by simpa using h)

/-- C6 witness: the nonempty two-line text `h` / `i` is below the budget
and the planner returns zero chunks, not one. -/
theorem below_budget_zero_chunks_witness :
    countWords (List.flatten [['h'], ['i']]) < 4096 ∧ planChunks [['h'], ['i']] = [] :=
  ⟨by decide, below_budget_zero_chunks [['h'], ['i']] (by decide)⟩

/-! ### Segment naming and failure propagation -/

/-- C3: the claim states that each chunk's audio segment path encodes the
chunk's loop index, making paths distinct; the path expression at
text2speak.py line 109 never mentions the loop counter, so a two-chunk job
writes both segments to the same `<dir>/6.mp3` path and the path list is
not duplicate-free. -/
theorem segment_paths_collide :
    chunkLoopPaths [] [exLine, exLine, xLine] [] 0 = [segPath [] 0, segPath [] 1] ∧
    ¬ (chunkLoopPaths [] [exLine, exLine, xLine] [] 0).Nodup := by
  have heq : chunkLoopPaths [] [exLine, exLine, xLine] [] 0 = [segPath [] 0, segPath [] 1] := by
    rw [chunkLoopPaths_cons, if_pos (by decide : countWords [] < 4096), List.nil_append,
      chunkLoopPaths_cons, if_neg cw_exLine_not_lt, chunkLoopPaths_cons, if_neg cw_exLine_not_lt]
    rfl
  refine ⟨heq, ?_⟩
  rw [heq]
  decide

theorem runSynth_error_at (k : Nat) : ∀ (lines : List PyStr) (text : PyStr) (i : Nat),
    i ≤ k → k - i < (chunkLoop lines text).length →
    runSynth (fun j => j != k) lines text i = Except.error ((chunkLoop lines text).take (k - i))
  | [], text, i, _, hlen => by
    simp [chunkLoop] at hlen
  | line :: rest, text, i, hik, hlen => by
    rw [chunkLoop_cons] at hlen ⊢
    rw [runSynth_cons]
    by_cases h : countWords text < 4096
    · simp only [if_pos h] at hlen ⊢
      exact runSynth_error_at k rest (text ++ line) i hik hlen
    · simp only [if_neg h] at hlen ⊢
      simp only [List.length_cons] at hlen
      by_cases hek : i = k
      · subst hek
        rw [if_neg (by simp)]
        rw [Nat.sub_self, List.take_zero]
      · have hik2 : i < k := lt_of_le_of_ne hik hek
        rw [if_pos (by simp [hek])]
        have hrec := runSynth_error_at k rest line (i + 1) (by omega) (by omega)
        rw [hrec]
        have hsub : k - i = (k - (i + 1)) + 1 := by omega
        rw [hsub, List.take_succ_cons]

/-- C5: if speech synthesis fails on the chunk with loop index `k` of a
multi-chunk job, the exception propagates out of the loop (text2speak.py
line 110 has no handler): the run ends in an error, the segments
synthesized are exactly the chunks before `k`, no segment for any later
chunk is created, and no merged artifact is produced (the error result is
terminal; `merge_audio_files` is reached in no code path of
`get_audio_file`). -/
theorem synthesis_failure_aborts (lines : List PyStr) (k : Nat)
    (hk : k < (planChunks lines).length) :
    runSynth (fun j => j != k) lines [] 0 = Except.error ((planChunks lines).take k) :=
  runSynth_error_at k lines [] 0 (Nat.zero_le k) hk

/-- C5 witness: a concrete two-chunk job where synthesis fails on the
second chunk (loop index 1): the run errors out having synthesized only the
first chunk. -/
theorem synthesis_failure_aborts_witness :
    1 < (planChunks [exLine, exLine, xLine]).length ∧
    runSynth (fun j => j != 1) [exLine, exLine, xLine] [] 0 =
      Except.error ((planChunks [exLine, exLine, xLine]).take 1) := by
  have hlen : 1 < (planChunks [exLine, exLine, xLine]).length := by
    rw [plan_three_lines]
    decide
  exact ⟨hlen, synthesis_failure_aborts [exLine, exLine, xLine] 1 hlen⟩

/-! ### The audio merge -/

theorem splitOnSpace_no_space : ∀ p : PyStr, ' ' ∉ p → splitOnSpace p = [p]
  | [], _ => rfl
  | c :: rest, hp => by
    have hc : ¬ c = ' ' := fun h => hp (by rw [h]; exact List.mem_cons_self ' ' rest)
    rw [splitOnSpace_cons, if_neg hc,
      splitOnSpace_no_space rest (fun h => hp (List.mem_cons_of_mem c h))]

theorem splitOnSpace_append_space : ∀ (p s : PyStr), ' ' ∉ p →
    splitOnSpace (p ++ ' ' :: s) = p :: splitOnSpace s
  | [], s, _ => by
    rw [List.nil_append, splitOnSpace_cons, if_pos rfl]
  | c :: rest, s, hp => by
    have hc : ¬ c = ' ' := fun h => hp (by rw [h]; exact List.mem_cons_self ' ' rest)
    rw [List.cons_append, splitOnSpace_cons, if_neg hc,
      splitOnSpace_append_space rest s (fun h => hp (List.mem_cons_of_mem c h))]

theorem shellWords_joinSpace : ∀ chunks : List PyStr,
    (∀ p ∈ chunks, p ≠ []) → (∀ p ∈ chunks, ' ' ∉ p) →
    shellWords (joinSpace chunks) = chunks
  | [], _, _ => rfl
  | [p], hne, hsp => by
    have h1 : ' ' ∉ p := hsp p (List.mem_singleton.mpr rfl)
    have h2 : p ≠ [] := hne p (List.mem_singleton.mpr rfl)
    show shellWords p = [p]
    unfold shellWords
    rw [splitOnSpace_no_space p h1]
    cases p with
    | nil => exact absurd rfl h2
    | cons a as => rfl
  | p :: q :: qs, hne, hsp => by
    have hp : ' ' ∉ p := hsp p (List.mem_cons_self p _)
    have hpne : p ≠ [] := hne p (List.mem_cons_self p _)
    have hfp : (!p.isEmpty) = true := by
      cases p with
      | nil => exact absurd rfl hpne
      | cons a as => rfl
    have ih := shellWords_joinSpace (q :: qs)
      (fun r hr => hne r (List.mem_cons_of_mem p hr))
      (fun r hr => hsp r (List.mem_cons_of_mem p hr))
    unfold shellWords at ih ⊢
    rw [joinSpace_cons2, splitOnSpace_append_space p (joinSpace (q :: qs)) hp]
    simp [List.filter_cons, hfp, ih]

/-- C4 counterexample: the claim quantifies over every ordered list of
segment paths, but the command string built at text2speak.py line 119
undergoes shell word splitting: for the single segment path `a b` (which
contains a space) the shell runs `cat` on the two files `a` and `b`, so the
destination receives none of the segment's bytes instead of its contents
`[1]`. -/
theorem merge_order_counterexample :
    merge_audio_files fsC4 [['a', ' ', 'b']] ['o'] ['o'] = some [] ∧
    ([['a', ' ', 'b']].map (fun p => (fsC4 p).getD [])).flatten = [1] :=
  ⟨by decide, by decide⟩

/-- C4 (amended): provided every segment path is nonempty and contains no
space character (so that each path survives shell word splitting as one
argument), the bytes written to the destination are exactly the
byte-concatenation of the segments' contents in the order given — not
sorted, not reversed, none skipped or duplicated. -/
theorem merge_preserves_order (fs : PyStr → Option Bytes) (chunks : List PyStr) (out : PyStr)
    (hne : ∀ p ∈ chunks, p ≠ []) (hsp : ∀ p ∈ chunks, ' ' ∉ p)
    (hex : ∀ p ∈ chunks, fs p ≠ none) :
    merge_audio_files fs chunks out out =
      some ((chunks.map (fun p => (fs p).getD [])).flatten) := by
  unfold merge_audio_files catOutput
  rw [if_pos rfl, shellWords_joinSpace chunks hne hsp]

/-- C4 witness: merging the two existing segments `a` (bytes `[1]`) and `b`
(bytes `[2, 3]`) writes `[1, 2, 3]` in the order given. -/
theorem merge_preserves_order_witness :
    merge_audio_files fsW4 [['a'], ['b']] ['o'] ['o'] = some [1, 2, 3] :=
  (merge_preserves_order fsW4 [['a'], ['b']] ['o']
    (by decide) (by decide) (by decide)).trans (by decide)

/-- C7 counterexample: the claim says a missing or zero-length input makes
`merge_audio_files` fail with a `MergeError` and leave no partial output;
the code ignores the shell's exit status and the redirection writes the
destination regardless: with segment `a` zero-length the merge completes
and writes `[9]`, and with an additional missing segment `z` it still
completes and leaves the partial output `[9]` at the destination. -/
theorem merge_error_counterexample :
    merge_audio_files fsC7 [['a'], ['b']] ['o'] ['o'] = some [9] ∧
    merge_audio_files fsC7 [['a'], ['z'], ['b']] ['o'] ['o'] = some [9] :=
  ⟨by decide, by decide⟩

/-- C7 (amended): `merge_audio_files` signals no error at all: even when
one of the (nonempty, space-free) segment paths is missing from the
filesystem, the destination is written and holds the concatenation of the
readable segments' contents, the missing segment contributing nothing —
a partial output is left in place instead of a `MergeError`. -/
theorem merge_missing_segment_no_error (fs : PyStr → Option Bytes) (chunks : List PyStr)
    (out : PyStr) (hne : ∀ p ∈ chunks, p ≠ []) (hsp : ∀ p ∈ chunks, ' ' ∉ p)
    (p0 : PyStr) (hp0 : p0 ∈ chunks) (hmiss : fs p0 = none) :
    merge_audio_files fs chunks out out =
      some ((chunks.map (fun p => (fs p).getD [])).flatten) := by
  unfold merge_audio_files catOutput
  rw [if_pos rfl, shellWords_joinSpace chunks hne hsp]

/-- C7 witness: segment `a` is missing, segment `b` holds `[7]`; the merge
still writes `[7]` to the destination. -/
theorem merge_missing_segment_no_error_witness :
    merge_audio_files fsW7 [['a'], ['b']] ['o'] ['o'] = some [7] :=
  (merge_missing_segment_no_error fsW7 [['a'], ['b']] ['o']
    (by decide) (by decide) ['a'] (by decide) (by decide)).trans (by decide)

/-! ### Extension dispatch and the convert endpoint -/

/-- C8 counterexample: for the unsupported extension `doc` the claim says
the conversion fails with an `UnsupportedFormatError`; the code instead
returns the ordinary value `-1` (text2speak.py line 100) — a normal
return, not an exception of any kind. -/
theorem unsupported_extension_counterexample :
    get_audio_file ("x.doc".toList) [['h']] = ConvResult.returned (-1) [] ∧
    ConvResult.returned (-1) [] ≠ ConvResult.exception ("UnsupportedFormatError".toList) :=
  ⟨by decide, by decide⟩

/-- C8 (amended): for every input file whose extension is neither `pdf` nor
`txt`, `get_audio_file` returns the integer sentinel `-1` immediately;
no chunk is produced and no synthesis call is made (the chunk loop is never
reached), and nothing is raised. -/
theorem unsupported_extension_sentinel (fileName : PyStr) (lines : List PyStr)
    (hpdf : extOf fileName ≠ "pdf".toList) (htxt : extOf fileName ≠ "txt".toList) :
    get_audio_file fileName lines = ConvResult.returned (-1) [] := by
  unfold get_audio_file
  rw [if_neg hpdf, if_neg htxt]

/-- C8 witness: the amended behaviour at the concrete file `x.doc`. -/
theorem unsupported_extension_sentinel_witness :
    get_audio_file ("x.doc".toList) [] = ConvResult.returned (-1) [] :=
  unsupported_extension_sentinel ("x.doc".toList) [] (by decide) (by decide)

/-- C9: the claim says `GET /convert/<filename>` triggers the conversion
pipeline for the named document; the handler (lbackend.py lines 257-267)
only echoes the filename as its JSON response and performs zero pipeline
invocations — no extraction, chunking, synthesis or merge is started. -/
theorem convert_endpoint_no_pipeline :
    lbackend_convert ("doc.pdf".toList) = ("doc.pdf".toList, ([] : List PyStr)) := rfl

/-! ### convert_bytes -/

/-- C10: for every nonnegative size below `1024 ^ 5` the loop of
`convert_bytes` stops at some unit index `k < 5` and returns the formatted
value `size / 1024 ^ k` with the unit `byteUnits.getD k []`; for every size
at least `1024 ^ 5` the loop exhausts the unit list and returns the bare
number `size / 1024 ^ 5` instead of a formatted string. -/
theorem convert_bytes_spec (size : ℚ) (h0 : 0 ≤ size) :
    (size < 1024 ^ 5 →
      ∃ k, k < 5 ∧
        convert_bytes size = SizeOutput.formatted (size / 1024 ^ k) (byteUnits.getD k [])) ∧
    (1024 ^ 5 ≤ size → convert_bytes size = SizeOutput.bare (size / 1024 ^ 5)) := by
  have e : convert_bytes size =
      if size < 1024 then SizeOutput.formatted size ("bytes".toList)
      else if size / 1024 < 1024 then SizeOutput.formatted (size / 1024) ("KB".toList)
      else if size / 1024 / 1024 < 1024 then
        SizeOutput.formatted (size / 1024 / 1024) ("MB".toList)
      else if size / 1024 / 1024 / 1024 < 1024 then
        SizeOutput.formatted (size / 1024 / 1024 / 1024) ("GB".toList)
      else if size / 1024 / 1024 / 1024 / 1024 < 1024 then
        SizeOutput.formatted (size / 1024 / 1024 / 1024 / 1024) ("TB".toList)
      else SizeOutput.bare (size / 1024 / 1024 / 1024 / 1024 / 1024) := rfl
  have d2 : size / 1024 / 1024 = size / 1024 ^ 2 := by rw [div_div]; norm_num
  have d3 : size / 1024 / 1024 / 1024 = size / 1024 ^ 3 := by
    rw [div_div, div_div]; norm_num
  have d4 : size / 1024 / 1024 / 1024 / 1024 = size / 1024 ^ 4 := by
    rw [div_div, div_div, div_div]; norm_num
  have d5 : size / 1024 / 1024 / 1024 / 1024 / 1024 = size / 1024 ^ 5 := by
    rw [div_div, div_div, div_div, div_div]; norm_num
  have c1 : size / 1024 < 1024 ↔ size < 1024 ^ 2 := by
    rw [show ((1024 : ℚ) ^ 2) = 1024 * 1024 from by norm_num]
    exact div_lt_iff (by norm_num)
  have c2 : size / 1024 / 1024 < 1024 ↔ size < 1024 ^ 3 := by
    rw [d2, show ((1024 : ℚ) ^ 3) = 1024 * 1024 ^ 2 from by norm_num]
    exact div_lt_iff (by positivity)
  have c3 : size / 1024 / 1024 / 1024 < 1024 ↔ size < 1024 ^ 4 := by
    rw [d3, show ((1024 : ℚ) ^ 4) = 1024 * 1024 ^ 3 from by norm_num]
    exact div_lt_iff (by positivity)
  have c4 : size / 1024 / 1024 / 1024 / 1024 < 1024 ↔ size < 1024 ^ 5 := by
    rw [d4, show ((1024 : ℚ) ^ 5) = 1024 * 1024 ^ 4 from by norm_num]
    exact div_lt_iff (by positivity)
  constructor
  · intro hlt
    by_cases b1 : size < 1024
    · exact ⟨0, by norm_num, by rw [e, if_pos b1]; simp [byteUnits]⟩
    by_cases b2 : size / 1024 < 1024
    · refine ⟨1, by norm_num, ?_⟩
      rw [e, if_neg b1, if_pos b2]
      simp [byteUnits]
    by_cases b3 : size / 1024 / 1024 < 1024
    · refine ⟨2, by norm_num, ?_⟩
      rw [e, if_neg b1, if_neg b2, if_pos b3, d2]
      simp [byteUnits]
    by_cases b4 : size / 1024 / 1024 / 1024 < 1024
    · refine ⟨3, by norm_num, ?_⟩
      rw [e, if_neg b1, if_neg b2, if_neg b3, if_pos b4, d3]
      simp [byteUnits]
    · refine ⟨4, by norm_num, ?_⟩
      have b5 : size / 1024 / 1024 / 1024 / 1024 < 1024 := c4.mpr hlt
      rw [e, if_neg b1, if_neg b2, if_neg b3, if_neg b4, if_pos b5, d4]
      simp [byteUnits]
  · intro hge
    have b1 : ¬ size < 1024 :=
      not_lt.mpr (le_trans (by norm_num : (1024 : ℚ) ≤ 1024 ^ 5) hge)
    have b2 : ¬ size / 1024 < 1024 := by
      rw [c1]
      exact not_lt.mpr (le_trans (by norm_num : (1024 : ℚ) ^ 2 ≤ 1024 ^ 5) hge)
    have b3 : ¬ size / 1024 / 1024 < 1024 := by
      rw [c2]
      exact not_lt.mpr (le_trans (by norm_num : (1024 : ℚ) ^ 3 ≤ 1024 ^ 5) hge)
    have b4 : ¬ size / 1024 / 1024 / 1024 < 1024 := by
      rw [c3]
      exact not_lt.mpr (le_trans (by norm_num : (1024 : ℚ) ^ 4 ≤ 1024 ^ 5) hge)
    have b5 : ¬ size / 1024 / 1024 / 1024 / 1024 < 1024 := by
      rw [c4]
      exact not_lt.mpr hge
    rw [e, if_neg b1, if_neg b2, if_neg b3, if_neg b4, if_neg b5, d5]

/-- C10 witness: the dichotomy applied at the concrete size 5, which is
formatted (with unit `bytes`), and the hypotheses discharged there. -/
theorem convert_bytes_spec_witness :
    (0 : ℚ) ≤ 5 ∧
    (((5 : ℚ) < 1024 ^ 5 →
      ∃ k, k < 5 ∧
        convert_bytes 5 = SizeOutput.formatted ((5 : ℚ) / 1024 ^ k) (byteUnits.getD k [])) ∧
    ((1024 : ℚ) ^ 5 ≤ 5 → convert_bytes 5 = SizeOutput.bare ((5 : ℚ) / 1024 ^ 5))) :=
  ⟨by norm_num, convert_bytes_spec 5 (by norm_num)⟩
